import Mathlib

/-!
Shallow embedding of the JSONP request bridge (`JsonpClientBackend` in the
repository's vendored `jsonp.js` module, `src/unnamed/part_001`).

The backend converts one JSONP request into an event stream:
* `handle` synchronously validates method / response type / headers and
  throws on violation, before the observable is constructed;
* on subscription it allocates a callback name from the global counter
  `nextRequestId`, rewrites the URL placeholder `=JSONP_CALLBACK`, registers
  the response callback in the shared callback map, appends a script node to
  the page and emits a `Sent` event;
* the script's `load` event defers the terminal decision by one microtask
  (`resolvedPromise.then`), then cleans up and emits either the
  `NoCallbackInvoked` error or the success response followed by completion;
* the script's `error` event cleans up immediately and emits a terminal error
  carrying the underlying cause;
* the teardown returned to the subscriber moves the script node into a lazily
  created foreign document when the callback has not fired, and runs cleanup.

The embedding makes the closure-captured mutable variables (`body`,
`finished`, the callback map, the page, the pending microtask, the observer)
explicit as fields of a machine state, and drives the machine with explicit
external stimuli (callback invocation, load event, microtask turn, error
event, unsubscription).
-/

namespace Jsonp

/-- JavaScript values as far as the bridge distinguishes them: the `body`
variable starts as `null`, and the response callback stores either a real
payload or `undefined` (when invoked with no argument). -/
inductive JVal (V : Type) where
  | null : JVal V
  | undef : JVal V
  | val : V → JVal V
deriving DecidableEq

/-- Convert the optional argument of the response callback (`data?: any`) to
the stored body value: a missing argument is `undefined`. -/
def jvalOfArg {V : Type} : Option V → JVal V
  | some v => JVal.val v
  | none => JVal.undef

/-- Cause object attached to a terminal `HttpErrorResponse`: either an
`Error` freshly constructed from a message (the no-callback path), or the
underlying error event handed to `onError` by the script loader. -/
inductive TermCause (E : Type) where
  | errMessage : String → TermCause E
  | loadCause : E → TermCause E
deriving DecidableEq

/-- Events delivered to the observer, with the fields the source passes to
`observer.next` / `observer.error`: the `Sent` marker, an `HttpResponse`
(body, status, statusText, url), an `HttpErrorResponse`
(error, status, statusText, url), and stream completion. -/
inductive HttpEvent (V E : Type) where
  | sent : HttpEvent V E
  | response : JVal V → Nat → String → String → HttpEvent V E
  | errorResponse : TermCause E → Nat → String → String → HttpEvent V E
  | complete : HttpEvent V E
deriving DecidableEq

/-- `JSONP_ERR_NO_CALLBACK` from the source. -/
def JSONP_ERR_NO_CALLBACK : String := "JSONP injected script did not invoke callback."

/-- `JSONP_ERR_WRONG_METHOD` from the source. -/
def JSONP_ERR_WRONG_METHOD : String := "JSONP requests must use JSONP request method."

/-- `JSONP_ERR_WRONG_RESPONSE_TYPE` from the source. -/
def JSONP_ERR_WRONG_RESPONSE_TYPE : String := "JSONP requests must use Json response type."

/-- `JSONP_ERR_HEADERS_NOT_SUPPORTED` from the source. -/
def JSONP_ERR_HEADERS_NOT_SUPPORTED : String := "JSONP requests do not support headers."

/-- The fields of an `HttpRequest` that `handle` reads: `method`,
`responseType`, `headers.keys()` and `urlWithParams`. -/
structure HttpRequest where
  method : String
  responseType : String
  headerKeys : List String
  urlWithParams : String

/-- The synchronous precondition checks at the top of `handle`, in source
order; `some msg` is the message of the `Error` thrown, `none` means the
request passes and the observable is constructed. -/
def handleThrow (req : HttpRequest) : Option String :=
  if req.method ≠ "JSONP" then some JSONP_ERR_WRONG_METHOD
  else if req.responseType ≠ "json" then some JSONP_ERR_WRONG_RESPONSE_TYPE
  else if req.headerKeys.length > 0 then some JSONP_ERR_HEADERS_NOT_SUPPORTED
  else none

/-- Decimal digit to its character, as produced by JavaScript number
formatting inside the template literal of `nextCallback`. -/
def digitToChar : Nat → Char
  | 0 => '0'
  | 1 => '1'
  | 2 => '2'
  | 3 => '3'
  | 4 => '4'
  | 5 => '5'
  | 6 => '6'
  | 7 => '7'
  | 8 => '8'
  | 9 => '9'
  | _ => '*'

/-- JavaScript decimal string of a natural number (`${n}` for a nonnegative
integer): most significant digit first, and `"0"` for zero. -/
def natToString (n : Nat) : String :=
  if n = 0 then "0" else String.mk (((Nat.digits 10 n).map digitToChar).reverse)

/-- `nextCallback`: the name generated for the request whose allocation reads
the global counter at value `n` (the counter is incremented alongside). -/
def nextCallback (n : Nat) : String :=
  "ng_jsonp_callback_" ++ natToString n

/-- The characters of the URL placeholder `=JSONP_CALLBACK`. -/
def placeholderChars : List Char := "=JSONP_CALLBACK".data

/-- Whether the tail of the URL at the current scan position is matched by
the regular expression `=JSONP_CALLBACK(&|$)`: the 15 placeholder characters
followed by `&` or by the end of the string. -/
def matchHere (l : List Char) : Bool :=
  if l.take 15 = placeholderChars then
    match l.drop 15 with
    | [] => true
    | c :: _ => c = '&'
  else false

/-- One pass of `String.replace` with the non-global regex
`/=JSONP_CALLBACK(&|$)/` and replacement `=${callback}$1`: scan left to
right, replace the first match's placeholder by `=` followed by the callback
name, keep the matched delimiter and the rest unchanged. -/
def replaceFirst (cb : List Char) : List Char → List Char
  | [] => []
  | c :: rest =>
    if matchHere (c :: rest) then
      '=' :: (cb ++ (c :: rest).drop 15)
    else
      c :: replaceFirst cb rest

/-- The URL rewrite in `handle`:
`req.urlWithParams.replace(/=JSONP_CALLBACK(&|$)/, "=" + callback + "$1")`. -/
def rewriteUrl (url : String) (cb : String) : String :=
  String.mk (replaceFirst cb.data url.data)

/-- The process-wide state outside any one exchange: the `nextRequestId`
counter, the callback map (modelled by its key set, as a Boolean membership
function), the lazily created `foreignDocument` (a document identity, or
`none` before creation) and a supply of fresh document identities. -/
structure GState where
  nextRequestId : Nat
  registry : String → Bool
  foreignDoc : Option Nat
  docCounter : Nat

/-- State of one subscribed exchange: the closure variables of the
subscription body of `handle`, the script node's whereabouts, the pending
deferred load-checks, and the observer (delivered events plus the Rx
subscriber's closed flag, set by error / complete / unsubscribe, after which
deliveries are dropped). -/
structure ExState (V E : Type) where
  callback : String
  url : String
  body : JVal V
  finished : Bool
  onPage : Bool
  adoptedInto : Option Nat
  pendingChecks : Nat
  events : List (HttpEvent V E)
  closed : Bool
  tornDown : Bool

/-- Whole machine: global state plus the in-flight exchange. -/
structure MState (V E : Type) where
  nextRequestId : Nat
  registry : String → Bool
  foreignDoc : Option Nat
  docCounter : Nat
  ex : ExState V E

/-- The global part of a machine state. -/
def MState.gstate {V E : Type} (s : MState V E) : GState :=
  { nextRequestId := s.nextRequestId
    registry := s.registry
    foreignDoc := s.foreignDoc
    docCounter := s.docCounter }

/-- Set a key in the callback map (`this.callbackMap[callback] = fn`). -/
def regSet (k : String) (r : String → Bool) : String → Bool :=
  fun x => if x = k then true else r x

/-- Delete a key from the callback map (`delete this.callbackMap[callback]`). -/
def regDel (k : String) (r : String → Bool) : String → Bool :=
  fun x => if x = k then false else r x

/-- The subscription body of the observable returned by `handle`: allocate
the callback name (incrementing the counter), rewrite the URL, create the
script node pointing at it, initialise `body = null` and `finished = false`,
register the response callback, attach the node to the page, and emit the
`Sent` event. -/
def subscribe {V E : Type} (req : HttpRequest) (g : GState) : MState V E :=
  let cb := nextCallback g.nextRequestId
  { nextRequestId := g.nextRequestId + 1
    registry := regSet cb g.registry
    foreignDoc := g.foreignDoc
    docCounter := g.docCounter
    ex :=
      { callback := cb
        url := rewriteUrl req.urlWithParams cb
        body := JVal.null
        finished := false
        onPage := true
        adoptedInto := none
        pendingChecks := 0
        events := [HttpEvent.sent]
        closed := false
        tornDown := false } }

/-- `observer.next e`: deliver unless the subscriber is closed. -/
def emitNext {V E : Type} (s : MState V E) (e : HttpEvent V E) : MState V E :=
  if s.ex.closed then s
  else { s with ex := { s.ex with events := s.ex.events ++ [e] } }

/-- `observer.error e`: deliver unless closed, and close the subscriber. -/
def emitError {V E : Type} (s : MState V E) (e : HttpEvent V E) : MState V E :=
  if s.ex.closed then s
  else { s with ex := { s.ex with events := s.ex.events ++ [e], closed := true } }

/-- `observer.complete()`: deliver unless closed, and close the subscriber. -/
def emitComplete {V E : Type} (s : MState V E) : MState V E :=
  if s.ex.closed then s
  else
    { s with ex :=
      { s.ex with events := s.ex.events ++ [HttpEvent.complete], closed := true } }

/-- The `cleanup` closure: remove the script node from the page if it is
still attached, and delete the exchange's callback-map entry. -/
def cleanup {V E : Type} (s : MState V E) : MState V E :=
  { s with registry := regDel s.ex.callback s.registry,
           ex := { s.ex with onPage := false } }

/-- The registered response callback
(`data => { delete map[cb]; body = data; finished = true }`); it can only run
while its callback-map entry exists, since the loaded script reaches it by
looking the name up in the shared namespace. -/
def invokeCallback {V E : Type} (s : MState V E) (data : Option V) : MState V E :=
  if s.registry s.ex.callback then
    { s with registry := regDel s.ex.callback s.registry,
             ex := { s.ex with body := jvalOfArg data, finished := true } }
  else s

/-- `onLoad`: schedule the deferred check with `resolvedPromise.then`; the
decision itself runs later, as a microtask. -/
def onLoad {V E : Type} (s : MState V E) : MState V E :=
  { s with ex := { s.ex with pendingChecks := s.ex.pendingChecks + 1 } }

/-- The body of the microtask scheduled by `onLoad`: clean up, then emit
either the no-callback error or the success response plus completion,
depending on `finished`. -/
def loadCheck {V E : Type} (s : MState V E) : MState V E :=
  let s1 := cleanup s
  if s1.ex.finished = false then
    emitError s1 (HttpEvent.errorResponse (TermCause.errMessage JSONP_ERR_NO_CALLBACK)
      0 "JSONP Error" s1.ex.url)
  else
    emitComplete (emitNext s1 (HttpEvent.response s1.ex.body 200 "OK" s1.ex.url))

/-- A microtask turn: run one scheduled deferred check, if any. -/
def flushOne {V E : Type} (s : MState V E) : MState V E :=
  match s.ex.pendingChecks with
  | 0 => s
  | n + 1 => loadCheck { s with ex := { s.ex with pendingChecks := n } }

/-- `onError`: clean up immediately and emit the terminal error carrying the
underlying cause; no deferral, and `finished` is not consulted. -/
def onError {V E : Type} (s : MState V E) (e : E) : MState V E :=
  let s1 := cleanup s
  emitError s1 (HttpEvent.errorResponse (TermCause.loadCause e) 0 "JSONP Error" s1.ex.url)

/-- `removeListeners`: lazily create the foreign document on first use, then
adopt the script node into it; the adoption detaches the node from the page. -/
def removeListeners {V E : Type} (s : MState V E) : MState V E :=
  match s.foreignDoc with
  | some d =>
    { s with ex := { s.ex with adoptedInto := some d, onPage := false } }
  | none =>
    { s with foreignDoc := some s.docCounter,
             docCounter := s.docCounter + 1,
             ex := { s.ex with adoptedInto := some s.docCounter, onPage := false } }

/-- Unsubscription: the Rx subscriber closes and runs the teardown returned
by the subscription body exactly once; the teardown moves the node to the
foreign document when the callback has not fired, then cleans up. -/
def unsubscribe {V E : Type} (s : MState V E) : MState V E :=
  if s.ex.tornDown then s
  else
    let s0 : MState V E := { s with ex := { s.ex with closed := true, tornDown := true } }
    let s1 := if s0.ex.finished = false then removeListeners s0 else s0
    cleanup s1

/-- External stimuli that drive one exchange: the loaded script invoking the
registered callback (with or without an argument), the script node's `load`
event, a microtask turn, the script node's `error` event with its cause, and
consumer unsubscription. -/
inductive Stim (V E : Type) where
  | invoke : Option V → Stim V E
  | load : Stim V E
  | micro : Stim V E
  | fail : E → Stim V E
  | unsub : Stim V E

/-- Dispatch one stimulus to the corresponding handler. -/
def step {V E : Type} (s : MState V E) : Stim V E → MState V E
  | Stim.invoke d => invokeCallback s d
  | Stim.load => onLoad s
  | Stim.micro => flushOne s
  | Stim.fail e => onError s e
  | Stim.unsub => unsubscribe s

/-- Run a list of stimuli from a state. -/
def run {V E : Type} (s : MState V E) (l : List (Stim V E)) : MState V E :=
  l.foldl step s

/-- `handle` as seen by the caller: the synchronous check result together
with the global state, which `handle` never touches (the observable body only
runs at subscription time). -/
def handle (req : HttpRequest) (g : GState) : Option String × GState :=
  (handleThrow req, g)

/-- The shapes an exchange's delivered-event list can take: just the `Sent`
marker, or `Sent` followed by a success response and completion, or `Sent`
followed by a terminal error with status 0 and status text "JSONP Error". -/
def EventsShape {V E : Type} (l : List (HttpEvent V E)) : Prop :=
  l = [HttpEvent.sent] ∨
  (∃ b u, l = [HttpEvent.sent, HttpEvent.response b 200 "OK" u, HttpEvent.complete]) ∨
  (∃ c u, l = [HttpEvent.sent, HttpEvent.errorResponse c 0 "JSONP Error" u])

/-- Reachability invariant of the machine: while the subscriber is open only
the `Sent` event has been delivered; the event list always has one of the
three legal shapes; once the subscriber is closed the callback-map entry is
gone and the script node is off the page; and a torn-down exchange is
closed. -/
def Inv {V E : Type} (s : MState V E) : Prop :=
  (s.ex.closed = false → s.ex.events = [HttpEvent.sent]) ∧
  EventsShape s.ex.events ∧
  (s.ex.closed = true → s.registry s.ex.callback = false ∧ s.ex.onPage = false) ∧
  (s.ex.tornDown = true → s.ex.closed = true)

/-- A concrete well-formed JSONP request, used to evaluate the machine. -/
def reqW : HttpRequest :=
  { method := "JSONP", responseType := "json", headerKeys := [],
    urlWithParams := "u?cb=JSONP_CALLBACK" }

/-- A concrete fresh global state, used to evaluate the machine. -/
def gW : GState :=
  { nextRequestId := 0, registry := fun _ => false, foreignDoc := none, docCounter := 0 }

theorem run_nil {V E : Type} (s : MState V E) : run s [] = s := rfl

theorem run_cons {V E : Type} (s : MState V E) (a : Stim V E) (l : List (Stim V E)) :
    run s (a :: l) = run (step s a) l := rfl

theorem run_append {V E : Type} (s : MState V E) (l1 l2 : List (Stim V E)) :
    run s (l1 ++ l2) = run (run s l1) l2 :=
  List.foldl_append step s l1 l2

theorem regDel_self (k : String) (r : String → Bool) : regDel k r k = false := by
  simp [regDel]

theorem regDel_idem (k : String) (r : String → Bool) :
    regDel k (regDel k r) = regDel k r := by
  funext x
  by_cases h : x = k <;> simp [regDel, h]

theorem inv_subscribe {V E : Type} (req : HttpRequest) (g : GState) :
    Inv (subscribe req g : MState V E) := by
  refine ⟨fun _ => rfl, Or.inl rfl, fun h => ?_, fun h => ?_⟩
  · simp [subscribe] at h
  · simp [subscribe] at h

theorem invokeCallback_pos {V E : Type} (s : MState V E) (d : Option V)
    (hr : s.registry s.ex.callback = true) :
    invokeCallback s d =
      { s with registry := regDel s.ex.callback s.registry,
               ex := { s.ex with body := jvalOfArg d, finished := true } } := by
  simp [invokeCallback, hr]

theorem invokeCallback_neg {V E : Type} (s : MState V E) (d : Option V)
    (hr : s.registry s.ex.callback = false) :
    invokeCallback s d = s := by
  simp [invokeCallback, hr]

theorem cleanup_ex_closed {V E : Type} (s : MState V E) :
    (cleanup s).ex.closed = s.ex.closed := rfl

theorem emitError_closed {V E : Type} (s : MState V E) (e : HttpEvent V E)
    (h : s.ex.closed = true) : emitError s e = s := by
  simp [emitError, h]

theorem emitError_open {V E : Type} (s : MState V E) (e : HttpEvent V E)
    (h : s.ex.closed = false) :
    emitError s e =
      { s with ex := { s.ex with events := s.ex.events ++ [e], closed := true } } := by
  simp [emitError, h]

theorem emitNext_closed {V E : Type} (s : MState V E) (e : HttpEvent V E)
    (h : s.ex.closed = true) : emitNext s e = s := by
  simp [emitNext, h]

theorem emitNext_open {V E : Type} (s : MState V E) (e : HttpEvent V E)
    (h : s.ex.closed = false) :
    emitNext s e =
      { s with ex := { s.ex with events := s.ex.events ++ [e] } } := by
  simp [emitNext, h]

theorem emitComplete_closed {V E : Type} (s : MState V E)
    (h : s.ex.closed = true) : emitComplete s = s := by
  simp [emitComplete, h]

theorem emitComplete_open {V E : Type} (s : MState V E)
    (h : s.ex.closed = false) :
    emitComplete s =
      { s with ex :=
        { s.ex with events := s.ex.events ++ [HttpEvent.complete], closed := true } } := by
  simp [emitComplete, h]

theorem loadCheck_closed {V E : Type} (s : MState V E)
    (h : s.ex.closed = true) : loadCheck s = cleanup s := by
  have h1 : (cleanup s).ex.closed = true := h
  simp only [loadCheck]
  split
  · exact emitError_closed _ _ h1
  · rw [emitNext_closed _ _ h1, emitComplete_closed _ h1]

theorem loadCheck_open_err {V E : Type} (s : MState V E)
    (hc : s.ex.closed = false) (hf : s.ex.finished = false) :
    loadCheck s =
      { s with
          registry := regDel s.ex.callback s.registry,
          ex := { s.ex with
                    onPage := false,
                    events := s.ex.events ++
                      [HttpEvent.errorResponse (TermCause.errMessage JSONP_ERR_NO_CALLBACK)
                        0 "JSONP Error" s.ex.url],
                    closed := true } } := by
  have h1 : (cleanup s).ex.closed = false := hc
  have h2 : (cleanup s).ex.finished = false := hf
  simp only [loadCheck, h2, if_pos]
  rw [emitError_open (cleanup s) _ h1]
  rfl

theorem loadCheck_open_ok {V E : Type} (s : MState V E)
    (hc : s.ex.closed = false) (hf : s.ex.finished = true) :
    loadCheck s =
      { s with
          registry := regDel s.ex.callback s.registry,
          ex := { s.ex with
                    onPage := false,
                    events := s.ex.events ++
                      [HttpEvent.response s.ex.body 200 "OK" s.ex.url, HttpEvent.complete],
                    closed := true } } := by
  have h1 : (cleanup s).ex.closed = false := hc
  have h2 : ¬((cleanup s).ex.finished = false) := by
    show ¬(s.ex.finished = false)
    simp [hf]
  simp only [loadCheck]
  rw [if_neg h2]
  rw [emitNext_open (cleanup s) _ h1]
  rw [emitComplete_open]
  · simp [cleanup]
  · exact h1

theorem unsubscribe_torn {V E : Type} (s : MState V E)
    (ht : s.ex.tornDown = true) : unsubscribe s = s := by
  simp [unsubscribe, ht]

theorem unsubscribe_fresh_finished {V E : Type} (s : MState V E)
    (ht : s.ex.tornDown = false) (hf : s.ex.finished = true) :
    unsubscribe s =
      cleanup { s with ex := { s.ex with closed := true, tornDown := true } } := by
  simp [unsubscribe, ht, hf]

theorem unsubscribe_fresh_unfinished {V E : Type} (s : MState V E)
    (ht : s.ex.tornDown = false) (hf : s.ex.finished = false) :
    unsubscribe s =
      cleanup (removeListeners
        { s with ex := { s.ex with closed := true, tornDown := true } }) := by
  simp [unsubscribe, ht, hf]

theorem flushOne_zero {V E : Type} (s : MState V E)
    (h : s.ex.pendingChecks = 0) : flushOne s = s := by
  simp only [flushOne, h]

theorem flushOne_succ {V E : Type} (s : MState V E) (n : Nat)
    (h : s.ex.pendingChecks = n + 1) :
    flushOne s = loadCheck { s with ex := { s.ex with pendingChecks := n } } := by
  simp only [flushOne, h]

theorem removeListeners_none {V E : Type} (s : MState V E)
    (h : s.foreignDoc = none) :
    removeListeners s =
      { s with
          foreignDoc := some s.docCounter,
          docCounter := s.docCounter + 1,
          ex := { s.ex with adoptedInto := some s.docCounter, onPage := false } } := by
  simp only [removeListeners, h]

theorem removeListeners_some {V E : Type} (s : MState V E) (d : Nat)
    (h : s.foreignDoc = some d) :
    removeListeners s =
      { s with ex := { s.ex with adoptedInto := some d, onPage := false } } := by
  simp only [removeListeners, h]

theorem inv_step {V E : Type} (s : MState V E) (st : Stim V E)
    (h : Inv s) : Inv (step s st) := by
  obtain ⟨hopen, hshape, hclosed, htd⟩ := h
  cases st with
  | invoke d =>
    show Inv (invokeCallback s d)
    by_cases hr : s.registry s.ex.callback = true
    · rw [invokeCallback_pos s d hr]
      exact ⟨fun hc => hopen hc, hshape,
        fun hc => ⟨regDel_self _ _, (hclosed hc).2⟩, fun ht => htd ht⟩
    · rw [invokeCallback_neg s d (by simpa using hr)]
      exact ⟨hopen, hshape, hclosed, htd⟩
  | load =>
    exact ⟨hopen, hshape, hclosed, htd⟩
  | micro =>
    show Inv (flushOne s)
    cases hp : s.ex.pendingChecks with
    | zero =>
      rw [flushOne_zero s hp]
      exact ⟨hopen, hshape, hclosed, htd⟩
    | succ n =>
      rw [flushOne_succ s n hp]
      by_cases hc : s.ex.closed = true
      · rw [loadCheck_closed]
        · exact ⟨fun h0 => absurd (show s.ex.closed = false from h0) (by simp [hc]),
            hshape, fun _ => ⟨regDel_self _ _, rfl⟩, fun _ => hc⟩
        · exact hc
      · have hc' : s.ex.closed = false := by simpa using hc
        have hev : s.ex.events = [HttpEvent.sent] := hopen hc'
        by_cases hf : s.ex.finished = false
        · rw [loadCheck_open_err]
          · exact ⟨fun h0 => absurd h0 (by simp),
              Or.inr (Or.inr ⟨TermCause.errMessage JSONP_ERR_NO_CALLBACK, s.ex.url,
                by simp [hev]⟩),
              fun _ => ⟨regDel_self _ _, rfl⟩, fun _ => rfl⟩
          · exact hc'
          · exact hf
        · rw [loadCheck_open_ok]
          · exact ⟨fun h0 => absurd h0 (by simp),
              Or.inr (Or.inl ⟨s.ex.body, s.ex.url, by simp [hev]⟩),
              fun _ => ⟨regDel_self _ _, rfl⟩, fun _ => rfl⟩
          · exact hc'
          · simpa using hf
  | fail e =>
    show Inv (emitError (cleanup s)
      (HttpEvent.errorResponse (TermCause.loadCause e) 0 "JSONP Error" (cleanup s).ex.url))
    by_cases hc : s.ex.closed = true
    · rw [emitError_closed (cleanup s) _ hc]
      exact ⟨fun h0 => absurd (show s.ex.closed = false from h0) (by simp [hc]),
        hshape, fun _ => ⟨regDel_self _ _, rfl⟩, fun _ => hc⟩
    · have hc' : s.ex.closed = false := by simpa using hc
      have hev : s.ex.events = [HttpEvent.sent] := hopen hc'
      rw [emitError_open (cleanup s) _ hc']
      exact ⟨fun h0 => absurd h0 (by simp [cleanup]),
        Or.inr (Or.inr ⟨TermCause.loadCause e, (cleanup s).ex.url,
          by simp [cleanup, hev]⟩),
        fun _ => ⟨regDel_self _ _, rfl⟩, fun _ => rfl⟩
  | unsub =>
    show Inv (unsubscribe s)
    by_cases ht : s.ex.tornDown = true
    · rw [unsubscribe_torn s ht]
      exact ⟨hopen, hshape, hclosed, htd⟩
    · have ht' : s.ex.tornDown = false := by simpa using ht
      by_cases hf : s.ex.finished = false
      · rw [unsubscribe_fresh_unfinished s ht' hf]
        cases hfd : s.foreignDoc with
        | none =>
          rw [removeListeners_none]
          · exact ⟨fun h0 => absurd h0 (by simp [cleanup]),
              by simpa [cleanup] using hshape,
              fun _ => ⟨regDel_self _ _, rfl⟩, fun _ => rfl⟩
          · rfl
        | some d =>
          rw [removeListeners_some _ d]
          · exact ⟨fun h0 => absurd h0 (by simp [cleanup]),
              by simpa [cleanup] using hshape,
              fun _ => ⟨regDel_self _ _, rfl⟩, fun _ => rfl⟩
          · rfl
      · rw [unsubscribe_fresh_finished s ht' (by simpa using hf)]
        exact ⟨fun h0 => absurd h0 (by simp [cleanup]),
          by simpa [cleanup] using hshape,
          fun _ => ⟨regDel_self _ _, rfl⟩, fun _ => rfl⟩

theorem inv_run {V E : Type} (s : MState V E) (l : List (Stim V E))
    (h : Inv s) : Inv (run s l) := by
  induction l generalizing s with
  | nil => exact h
  | cons a l ih => exact ih _ (inv_step s a h)

theorem closed_step {V E : Type} (s : MState V E) (st : Stim V E)
    (h : s.ex.closed = true) :
    (step s st).ex.events = s.ex.events ∧ (step s st).ex.closed = true := by
  cases st with
  | invoke d =>
    show (invokeCallback s d).ex.events = _ ∧ (invokeCallback s d).ex.closed = true
    by_cases hr : s.registry s.ex.callback = true
    · rw [invokeCallback_pos s d hr]; exact ⟨rfl, h⟩
    · rw [invokeCallback_neg s d (by simpa using hr)]; exact ⟨rfl, h⟩
  | load => exact ⟨rfl, h⟩
  | micro =>
    show (flushOne s).ex.events = _ ∧ (flushOne s).ex.closed = true
    cases hp : s.ex.pendingChecks with
    | zero => rw [flushOne_zero s hp]; exact ⟨rfl, h⟩
    | succ n =>
      rw [flushOne_succ s n hp, loadCheck_closed]
      · exact ⟨rfl, h⟩
      · exact h
  | fail e =>
    show (emitError (cleanup s) _).ex.events = _ ∧ (emitError (cleanup s) _).ex.closed = true
    rw [emitError_closed (cleanup s) _ h]
    exact ⟨rfl, h⟩
  | unsub =>
    show (unsubscribe s).ex.events = _ ∧ (unsubscribe s).ex.closed = true
    by_cases ht : s.ex.tornDown = true
    · rw [unsubscribe_torn s ht]; exact ⟨rfl, h⟩
    · have ht' : s.ex.tornDown = false := by simpa using ht
      by_cases hf : s.ex.finished = false
      · rw [unsubscribe_fresh_unfinished s ht' hf]
        cases hfd : s.foreignDoc with
        | none =>
          rw [removeListeners_none]
          · exact ⟨rfl, rfl⟩
          · rfl
        | some d =>
          rw [removeListeners_some _ d]
          · exact ⟨rfl, rfl⟩
          · rfl
      · rw [unsubscribe_fresh_finished s ht' (by simpa using hf)]
        exact ⟨rfl, rfl⟩

theorem closed_run {V E : Type} (s : MState V E) (l : List (Stim V E))
    (h : s.ex.closed = true) :
    (run s l).ex.events = s.ex.events ∧ (run s l).ex.closed = true := by
  induction l generalizing s with
  | nil => exact ⟨rfl, h⟩
  | cons a l ih =>
    obtain ⟨h1, h2⟩ := closed_step s a h
    obtain ⟨h3, h4⟩ := ih (step s a) h2
    exact ⟨h3.trans h1, h4⟩

theorem regSet_self (k : String) (r : String → Bool) : regSet k r k = true := by
  simp [regSet]

/-- Claim C1: for every valid JSONP exchange whose script load completes,
after the deferred check: if the registered callback was invoked with payload
`p` before the load-complete is processed, the exchange emits a success
response with body `p`, status 200, status text "OK" and the rewritten URL,
then stream completion; if the callback was invoked with no argument, it
emits success with the "no content" (`undefined`) body; if the callback was
never invoked, it emits a terminal error with message
`JSONP injected script did not invoke callback.` and status 0. -/
theorem c1_load_complete_outcomes (V E : Type) (p : V) (req : HttpRequest) (g : GState) :
    (subscribe req g : MState V E).ex.url
        = rewriteUrl req.urlWithParams (nextCallback g.nextRequestId) ∧
    (run (subscribe req g : MState V E)
        [Stim.invoke (some p), Stim.load, Stim.micro]).ex.events
      = [HttpEvent.sent,
         HttpEvent.response (JVal.val p) 200 "OK" (subscribe req g : MState V E).ex.url,
         HttpEvent.complete] ∧
    (run (subscribe req g : MState V E)
        [Stim.invoke none, Stim.load, Stim.micro]).ex.events
      = [HttpEvent.sent,
         HttpEvent.response JVal.undef 200 "OK" (subscribe req g : MState V E).ex.url,
         HttpEvent.complete] ∧
    (run (subscribe req g : MState V E) [Stim.load, Stim.micro]).ex.events
      = [HttpEvent.sent,
         HttpEvent.errorResponse (TermCause.errMessage JSONP_ERR_NO_CALLBACK)
           0 "JSONP Error" (subscribe req g : MState V E).ex.url] := by
  refine ⟨rfl, ?_, ?_, ?_⟩ <;>
    simp [run, step, subscribe, invokeCallback, onLoad, flushOne, loadCheck, cleanup,
      emitError, emitNext, emitComplete, regSet, regDel, jvalOfArg, List.foldl]

/-- Claim C2: on the load-complete path the terminal decision is deferred by
one microtask: right after the `load` event is handled no terminal event has
been emitted and one deferred check is pending, and a callback invocation
that happens between the `load` event and the deferred turn (as a
synchronous invocation during the script's own evaluation does) is observed,
yielding success rather than the no-callback error. -/
theorem c2_deferred_decision (V E : Type) (p : V) (req : HttpRequest) (g : GState) :
    (run (subscribe req g : MState V E) [Stim.load]).ex.events = [HttpEvent.sent] ∧
    (run (subscribe req g : MState V E) [Stim.load]).ex.pendingChecks = 1 ∧
    (run (subscribe req g : MState V E)
        [Stim.load, Stim.invoke (some p), Stim.micro]).ex.events
      = [HttpEvent.sent,
         HttpEvent.response (JVal.val p) 200 "OK" (subscribe req g : MState V E).ex.url,
         HttpEvent.complete] ∧
    (run (subscribe req g : MState V E)
        [Stim.load, Stim.invoke none, Stim.micro]).ex.events
      = [HttpEvent.sent,
         HttpEvent.response JVal.undef 200 "OK" (subscribe req g : MState V E).ex.url,
         HttpEvent.complete] := by
  refine ⟨rfl, rfl, ?_, ?_⟩ <;>
    simp [run, step, subscribe, invokeCallback, onLoad, flushOne, loadCheck, cleanup,
      emitError, emitNext, emitComplete, regSet, regDel, jvalOfArg, List.foldl]

/-- Claim C3: `handle` throws synchronously, before the event stream is
constructed, exactly when the request violates a precondition, checked in
order: wrong method first, then wrong response type, then non-empty headers,
each with its fixed message; and in every case `handle` leaves the global
state (counter, callback map, documents) untouched. -/
theorem c3_precondition_checks (req : HttpRequest) (g : GState) (m : String) :
    (handleThrow req = some m ↔
      (req.method ≠ "JSONP" ∧ m = JSONP_ERR_WRONG_METHOD) ∨
      (req.method = "JSONP" ∧ req.responseType ≠ "json" ∧
        m = JSONP_ERR_WRONG_RESPONSE_TYPE) ∨
      (req.method = "JSONP" ∧ req.responseType = "json" ∧ req.headerKeys ≠ [] ∧
        m = JSONP_ERR_HEADERS_NOT_SUPPORTED)) ∧
    (handle req g).2 = g := by
  refine ⟨?_, rfl⟩
  unfold handleThrow
  split_ifs with h1 h2 h3 <;>
    simp_all [eq_comm, List.length_pos]

/-- Claim C6: if the script loader signals a load error, the exchange cleans
up and emits the terminal error in the same turn (no pending deferred check
remains or is needed), carrying the underlying error cause, status 0 and the
rewritten URL, and it does so regardless of whether the callback had already
fired before the error event. -/
theorem c6_load_error (V E : Type) (e : E) (d : Option V)
    (req : HttpRequest) (g : GState) :
    (run (subscribe req g : MState V E) [Stim.fail e]).ex.events
      = [HttpEvent.sent,
         HttpEvent.errorResponse (TermCause.loadCause e) 0 "JSONP Error"
           (subscribe req g : MState V E).ex.url] ∧
    (run (subscribe req g : MState V E) [Stim.invoke d, Stim.fail e]).ex.events
      = [HttpEvent.sent,
         HttpEvent.errorResponse (TermCause.loadCause e) 0 "JSONP Error"
           (subscribe req g : MState V E).ex.url] ∧
    (run (subscribe req g : MState V E) [Stim.fail e]).registry
        (subscribe req g : MState V E).ex.callback = false ∧
    (run (subscribe req g : MState V E) [Stim.fail e]).ex.onPage = false ∧
    (run (subscribe req g : MState V E) [Stim.fail e]).ex.pendingChecks = 0 := by
  refine ⟨?_, ?_, ?_, rfl, rfl⟩ <;>
    simp [run, step, subscribe, invokeCallback, onError, cleanup,
      emitError, emitNext, emitComplete, regSet, regDel, jvalOfArg, List.foldl]

theorem unsub_closed {V E : Type} (t : MState V E) (h : Inv t) :
    (unsubscribe t).ex.closed = true := by
  by_cases ht : t.ex.tornDown = true
  · rw [unsubscribe_torn t ht]
    exact h.2.2.2 ht
  · have ht' : t.ex.tornDown = false := by simpa using ht
    by_cases hf : t.ex.finished = false
    · rw [unsubscribe_fresh_unfinished t ht' hf]
      cases hfd : t.foreignDoc with
      | none =>
        rw [removeListeners_none]
        · rfl
        · rfl
      | some d =>
        rw [removeListeners_some _ d]
        · rfl
        · rfl
    · rw [unsubscribe_fresh_finished t ht' (by simpa using hf)]
      rfl

/-- Claim C4: for every valid request and subscription, exactly one `Sent`
event is delivered, synchronously at subscription time; after any stimulus
sequence the delivered events are `Sent` alone, or `Sent` followed by one
success response and completion, or `Sent` followed by one terminal error —
so the single terminal outcome is never delivered twice; and once the
consumer unsubscribes, no further event of any kind is delivered, even if
the callback, the load event or a deferred check fires later. -/
theorem c4_event_protocol (V E : Type) (req : HttpRequest) (g : GState)
    (stims : List (Stim V E)) :
    (subscribe req g : MState V E).ex.events = [HttpEvent.sent] ∧
    EventsShape (run (subscribe req g : MState V E) stims).ex.events ∧
    (∀ l1 l2, stims = l1 ++ Stim.unsub :: l2 →
      (run (subscribe req g : MState V E) stims).ex.events
        = (run (subscribe req g : MState V E) (l1 ++ [Stim.unsub])).ex.events) := by
  refine ⟨rfl, (inv_run _ stims (inv_subscribe req g)).2.1, ?_⟩
  intro l1 l2 hdec
  have hclosed : (run (subscribe req g : MState V E) (l1 ++ [Stim.unsub])).ex.closed
      = true := by
    rw [run_append]
    exact unsub_closed _ (inv_run _ l1 (inv_subscribe req g))
  have hsplit : (l1 ++ Stim.unsub :: l2) = (l1 ++ [Stim.unsub]) ++ l2 := by simp
  rw [hdec, hsplit, run_append]
  exact (closed_run _ l2 hclosed).1

/-- Claim C5: after any terminal event and after cancellation (that is,
whenever the subscriber has been closed), the callback map holds no entry
for the exchange's callback identifier and the script node is off the page;
and the `cleanup` closure is idempotent, as required for it to be run from
any of the three termination paths. -/
theorem c5_registry_cleared (V E : Type) (req : HttpRequest) (g : GState)
    (stims : List (Stim V E)) :
    ((run (subscribe req g : MState V E) stims).ex.closed = true →
      (run (subscribe req g : MState V E) stims).registry
          (run (subscribe req g : MState V E) stims).ex.callback = false ∧
      (run (subscribe req g : MState V E) stims).ex.onPage = false) ∧
    (∀ t : MState V E, cleanup (cleanup t) = cleanup t) := by
  refine ⟨(inv_run _ stims (inv_subscribe req g)).2.2.1, ?_⟩
  intro t
  simp [cleanup, regDel_idem]

/-- Claim C10: every terminal error event the machine can ever deliver — on
the no-callback path as much as on the load-error path — carries status text
exactly "JSONP Error" (and status 0). -/
theorem c10_error_status_text (V E : Type) (req : HttpRequest) (g : GState)
    (stims : List (Stim V E)) (c : TermCause E) (st : Nat) (stt u : String) :
    HttpEvent.errorResponse c st stt u
        ∈ (run (subscribe req g : MState V E) stims).ex.events →
      stt = "JSONP Error" ∧ st = 0 := by
  intro hmem
  rcases (inv_run _ stims (inv_subscribe req g)).2.1 with h | ⟨b, u0, h⟩ | ⟨c0, u0, h⟩ <;>
    rw [h] at hmem <;> simp at hmem
  obtain ⟨-, h2, h3, -⟩ := hmem
  exact ⟨h3, h2⟩

theorem str_ext (x y : String) (h : x.data = y.data) : x = y := by
  cases x
  cases y
  exact congrArg String.mk h

theorem matchHere_placeholder (t : List Char) (h : t = [] ∨ ∃ r, t = '&' :: r) :
    matchHere (placeholderChars ++ t) = true := by
  have h15 : placeholderChars.length = 15 := rfl
  have htake : (placeholderChars ++ t).take 15 = placeholderChars := by
    rw [← h15]
    exact List.take_left placeholderChars t
  have hdrop : (placeholderChars ++ t).drop 15 = t := by
    rw [← h15]
    exact List.drop_left placeholderChars t
  rw [matchHere, if_pos htake, hdrop]
  rcases h with rfl | ⟨r, rfl⟩ <;> simp

theorem replaceFirst_placeholder (cb t : List Char) (h : t = [] ∨ ∃ r, t = '&' :: r) :
    replaceFirst cb (placeholderChars ++ t) = '=' :: (cb ++ t) := by
  have hm := matchHere_placeholder t h
  have h15 : placeholderChars.length = 15 := rfl
  have hdrop : (placeholderChars ++ t).drop 15 = t := by
    rw [← h15]
    exact List.drop_left placeholderChars t
  have hcons : placeholderChars ++ t = '=' :: ("JSONP_CALLBACK".data ++ t) := rfl
  rw [hcons] at hm hdrop ⊢
  rw [replaceFirst, if_pos hm, hdrop]

theorem replaceFirst_append_no_match (cb l tl : List Char)
    (h : ∀ i, i < l.length → matchHere (List.drop i l ++ tl) = false) :
    replaceFirst cb (l ++ tl) = l ++ replaceFirst cb tl := by
  induction l with
  | nil => simp
  | cons c rest ih =>
    have h0 : matchHere (c :: (rest ++ tl)) = false := by
      simpa using h 0 (by simp)
    rw [List.cons_append, replaceFirst, if_neg (by simp [h0])]
    rw [ih (fun i hi => by simpa using h (i + 1) (by simpa using Nat.succ_lt_succ hi))]
    simp

theorem replaceFirst_no_match (cb l : List Char)
    (h : ∀ i, matchHere (List.drop i l) = false) :
    replaceFirst cb l = l := by
  induction l with
  | nil => rfl
  | cons c rest ih =>
    have h0 : matchHere (c :: rest) = false := by simpa using h 0
    rw [replaceFirst, if_neg (by simp [h0])]
    rw [ih (fun i => by simpa using h (i + 1))]

/-- Claim C7: the URL rewrite is exact: when the first regex match of
`=JSONP_CALLBACK(&|$)` in the URL-with-params sits at the end of prefix `a`
(no earlier scan position matches), the placeholder is replaced by `=`
followed by the callback name with the trailing delimiter and every other
character preserved, and exactly one substitution is performed (the suffix
`t`, which may itself contain further placeholders, is kept verbatim); and
when no position of a URL matches, the rewritten URL equals the original. -/
theorem c7_url_rewrite (a t cb : String)
    (h1 : ∀ i, i < a.data.length →
      matchHere (List.drop i a.data ++ (placeholderChars ++ t.data)) = false)
    (h2 : t = "" ∨ ∃ r, t = "&" ++ r) :
    rewriteUrl (a ++ "=JSONP_CALLBACK" ++ t) cb = a ++ "=" ++ cb ++ t ∧
    (∀ u : String, (∀ i, matchHere (List.drop i u.data) = false) →
      rewriteUrl u cb = u) := by
  constructor
  · have h2' : t.data = [] ∨ ∃ r : List Char, t.data = '&' :: r := by
      rcases h2 with rfl | ⟨r, rfl⟩
      · exact Or.inl rfl
      · exact Or.inr ⟨r.data, by rw [String.data_append]; rfl⟩
    apply str_ext
    show replaceFirst cb.data (a ++ "=JSONP_CALLBACK" ++ t).data = _
    have hdata : (a ++ "=JSONP_CALLBACK" ++ t).data
        = a.data ++ (placeholderChars ++ t.data) := by
      rw [String.data_append, String.data_append, List.append_assoc]
      rfl
    rw [hdata, replaceFirst_append_no_match cb.data a.data _ h1,
      replaceFirst_placeholder cb.data t.data h2']
    rw [String.data_append, String.data_append, String.data_append]
    simp [placeholderChars]
  · intro u hu
    apply str_ext
    show replaceFirst cb.data u.data = u.data
    exact replaceFirst_no_match cb.data u.data hu

theorem digitToChar_inj_lt :
    ∀ a, a < 10 → ∀ b, b < 10 → digitToChar a = digitToChar b → a = b := by
  decide

theorem map_digitToChar_inj (l1 : List Nat) :
    ∀ l2 : List Nat, (∀ d ∈ l1, d < 10) → (∀ d ∈ l2, d < 10) →
      l1.map digitToChar = l2.map digitToChar → l1 = l2 := by
  induction l1 with
  | nil =>
    intro l2 _ _ h
    cases l2 with
    | nil => rfl
    | cons b l2t => simp at h
  | cons a l1t ih =>
    intro l2 hb1 hb2 h
    cases l2 with
    | nil => simp at h
    | cons b l2t =>
      simp only [List.map_cons, List.cons.injEq] at h
      have hab : a = b :=
        digitToChar_inj_lt a (hb1 a (by simp)) b (hb2 b (by simp)) h.1
      have htl : l1t = l2t :=
        ih l2t (fun d hd => hb1 d (by simp [hd])) (fun d hd => hb2 d (by simp [hd])) h.2
      rw [hab, htl]

theorem natToString_inj (m n : Nat) (h : natToString m = natToString n) : m = n := by
  have digits_of_eq_zero_str : ∀ k : Nat, k ≠ 0 →
      natToString k = "0" → False := by
    intro k hk hs
    rw [natToString, if_neg hk] at hs
    have hd : ((Nat.digits 10 k).map digitToChar).reverse = ['0'] :=
      congrArg String.data hs
    have hmap : (Nat.digits 10 k).map digitToChar = ['0'] := by
      have := congrArg List.reverse hd
      simpa using this
    have hdig : Nat.digits 10 k = [0] := by
      apply map_digitToChar_inj
      · exact fun d hd0 => Nat.digits_lt_base (by norm_num) hd0
      · intro d hd0
        simp at hd0
        simp [hd0]
      · simpa using hmap
    have hk0 : k = 0 := by
      have h0 := Nat.ofDigits_digits 10 k
      rw [hdig] at h0
      simpa [Nat.ofDigits] using h0.symm
    exact hk hk0
  have h00 : natToString 0 = "0" := by rw [natToString, if_pos rfl]
  by_cases hm : m = 0
  · by_cases hn : n = 0
    · rw [hm, hn]
    · subst hm
      rw [h00] at h
      exact absurd (digits_of_eq_zero_str n hn h.symm) (by simp)
  · by_cases hn : n = 0
    · subst hn
      rw [h00] at h
      exact absurd (digits_of_eq_zero_str m hm h) (by simp)
    · rw [natToString, if_neg hm, natToString, if_neg hn] at h
      have hd : ((Nat.digits 10 m).map digitToChar).reverse
          = ((Nat.digits 10 n).map digitToChar).reverse := congrArg String.data h
      have hmap : (Nat.digits 10 m).map digitToChar
          = (Nat.digits 10 n).map digitToChar := by
        have := congrArg List.reverse hd
        simpa using this
      have hdig : Nat.digits 10 m = Nat.digits 10 n :=
        map_digitToChar_inj _ _ (fun d h0 => Nat.digits_lt_base (by norm_num) h0)
          (fun d h0 => Nat.digits_lt_base (by norm_num) h0) hmap
      exact Nat.digits_inj_iff.mp hdig

theorem nextCallback_inj (m n : Nat) (h : nextCallback m = nextCallback n) : m = n := by
  have hd := congrArg String.data h
  rw [nextCallback, nextCallback, String.data_append, String.data_append] at hd
  exact natToString_inj m n (str_ext _ _ (List.append_cancel_left hd))

/-- Claim C8: callback identifiers are unique and strictly increasing: an
allocation returns `ng_jsonp_callback_` followed by the current counter
value and bumps the counter by one, so a second exchange subscribed
back-to-back (threading the global state of the first) gets the next
identifier, different identifiers come from different counter values, and in
particular the two exchanges never share a callback identifier. -/
theorem c8_unique_callbacks (V E : Type) (req1 req2 : HttpRequest) (g : GState) :
    (subscribe req1 g : MState V E).ex.callback = nextCallback g.nextRequestId ∧
    (subscribe req1 g : MState V E).nextRequestId = g.nextRequestId + 1 ∧
    (subscribe req2 (subscribe req1 g : MState V E).gstate : MState V E).ex.callback
      = nextCallback (g.nextRequestId + 1) ∧
    (subscribe req1 g : MState V E).ex.callback
      ≠ (subscribe req2 (subscribe req1 g : MState V E).gstate : MState V E).ex.callback ∧
    (∀ m n : Nat, m ≠ n → nextCallback m ≠ nextCallback n) := by
  refine ⟨rfl, rfl, rfl, ?_, ?_⟩
  · intro h
    have h2 : nextCallback g.nextRequestId = nextCallback (g.nextRequestId + 1) := h
    have := nextCallback_inj _ _ h2
    omega
  · intro m n hmn h
    exact hmn (nextCallback_inj m n h)

theorem loadCheck_foreignDoc {V E : Type} (t : MState V E) :
    (loadCheck t).foreignDoc = t.foreignDoc := by
  by_cases hc : t.ex.closed = true
  · rw [loadCheck_closed t hc]
    rfl
  · have hc' : t.ex.closed = false := by simpa using hc
    by_cases hf : t.ex.finished = false
    · rw [loadCheck_open_err t hc' hf]
    · rw [loadCheck_open_ok t hc' (by simpa using hf)]

theorem foreignDoc_step {V E : Type} (s : MState V E) (st : Stim V E) (d : Nat)
    (h : s.foreignDoc = some d) : (step s st).foreignDoc = some d := by
  cases st with
  | invoke dd =>
    show (invokeCallback s dd).foreignDoc = some d
    by_cases hr : s.registry s.ex.callback = true
    · rw [invokeCallback_pos s dd hr]; exact h
    · rw [invokeCallback_neg s dd (by simpa using hr)]; exact h
  | load => exact h
  | micro =>
    show (flushOne s).foreignDoc = some d
    cases hp : s.ex.pendingChecks with
    | zero => rw [flushOne_zero s hp]; exact h
    | succ n =>
      rw [flushOne_succ s n hp, loadCheck_foreignDoc]
      exact h
  | fail e =>
    show (emitError (cleanup s)
      (HttpEvent.errorResponse (TermCause.loadCause e) 0 "JSONP Error"
        (cleanup s).ex.url)).foreignDoc = some d
    by_cases hc : s.ex.closed = true
    · rw [emitError_closed (cleanup s) _ hc]; exact h
    · rw [emitError_open (cleanup s) _ (show (cleanup s).ex.closed = false by simpa using hc)]
      exact h
  | unsub =>
    show (unsubscribe s).foreignDoc = some d
    by_cases ht : s.ex.tornDown = true
    · rw [unsubscribe_torn s ht]; exact h
    · have ht' : s.ex.tornDown = false := by simpa using ht
      by_cases hf : s.ex.finished = false
      · rw [unsubscribe_fresh_unfinished s ht' hf]
        rw [removeListeners_some _ d]
        · exact h
        · exact h
      · rw [unsubscribe_fresh_finished s ht' (by simpa using hf)]
        exact h

theorem foreignDoc_run {V E : Type} (s : MState V E) (l : List (Stim V E)) (d : Nat)
    (h : s.foreignDoc = some d) : (run s l).foreignDoc = some d := by
  induction l generalizing s with
  | nil => exact h
  | cons a l ih => exact ih _ (foreignDoc_step s a d h)

/-- Claim C9: on unsubscription the script node is adopted into the inert
foreign document exactly when the callback has not fired by that time; when
the callback has fired, only cleanup runs (the teardown is cleanup of the
closed, torn-down state, with no adoption); and the foreign document is
created lazily on the first neutralisation — reusing the existing document,
with no fresh allocation, on every later one — and once created it persists
unchanged through every further step of the machine. -/
theorem c9_neutralize_on_cancel (V E : Type) (s : MState V E)
    (h1 : s.ex.tornDown = false) (h2 : s.ex.adoptedInto = none) :
    (((unsubscribe s).ex.adoptedInto ≠ none) ↔ s.ex.finished = false) ∧
    (s.ex.finished = true →
      unsubscribe s =
        cleanup { s with ex := { s.ex with closed := true, tornDown := true } }) ∧
    (∀ d, s.foreignDoc = some d →
      (removeListeners s).foreignDoc = some d ∧
      (removeListeners s).ex.adoptedInto = some d ∧
      (removeListeners s).docCounter = s.docCounter) ∧
    (s.foreignDoc = none →
      (removeListeners s).foreignDoc = some s.docCounter ∧
      (removeListeners s).ex.adoptedInto = some s.docCounter) ∧
    (∀ stims : List (Stim V E), ∀ d, s.foreignDoc = some d →
      (run s stims).foreignDoc = some d) := by
  refine ⟨?_, ?_, ?_, ?_, ?_⟩
  · by_cases hf : s.ex.finished = false
    · rw [unsubscribe_fresh_unfinished s h1 hf]
      simp only [hf, iff_true]
      cases hfd : s.foreignDoc with
      | none =>
        rw [removeListeners_none]
        · simp [cleanup]
        · rfl
      | some d =>
        rw [removeListeners_some _ d]
        · simp [cleanup]
        · rfl
    · have hf' : s.ex.finished = true := by simpa using hf
      rw [unsubscribe_fresh_finished s h1 hf']
      simp [cleanup, h2, hf']
  · intro hf
    exact unsubscribe_fresh_finished s h1 hf
  · intro d hd
    rw [removeListeners_some _ d hd]
    exact ⟨hd, rfl, rfl⟩
  · intro hd
    rw [removeListeners_none _ hd]
    exact ⟨rfl, rfl⟩
  · intro stims d hd
    exact foreignDoc_run s stims d hd

/-- Witness for C3: a GET request is rejected with the wrong-method message. -/
theorem c3_witness :
    handleThrow
        { method := "GET", responseType := "json",
          headerKeys := [], urlWithParams := "u" }
      = some JSONP_ERR_WRONG_METHOD :=
  (c3_precondition_checks
    { method := "GET", responseType := "json", headerKeys := [], urlWithParams := "u" }
    gW JSONP_ERR_WRONG_METHOD).1.mpr (Or.inl ⟨by decide, rfl⟩)

/-- Witness for C4: after an unsubscription, later load and microtask
stimuli deliver no further event. -/
theorem c4_witness :
    (run (subscribe reqW gW : MState Nat Nat)
        [Stim.unsub, Stim.load, Stim.micro]).ex.events
      = (run (subscribe reqW gW : MState Nat Nat) ([] ++ [Stim.unsub])).ex.events :=
  (c4_event_protocol Nat Nat reqW gW [Stim.unsub, Stim.load, Stim.micro]).2.2
    [] [Stim.load, Stim.micro] rfl

/-- Witness for C5: after the no-callback terminal error, the callback-map
entry is gone and the node is off the page. -/
theorem c5_witness :
    (run (subscribe reqW gW : MState Nat Nat) [Stim.load, Stim.micro]).registry
        (run (subscribe reqW gW : MState Nat Nat) [Stim.load, Stim.micro]).ex.callback
      = false ∧
    (run (subscribe reqW gW : MState Nat Nat) [Stim.load, Stim.micro]).ex.onPage
      = false :=
  (c5_registry_cleared Nat Nat reqW gW [Stim.load, Stim.micro]).1 (by decide)

/-- Witness for C7: the spec's concrete example of the exact rewrite. -/
theorem c7_witness :
    rewriteUrl ("https://x?cb" ++ "=JSONP_CALLBACK" ++ "&y=1") "c7"
      = "https://x?cb" ++ "=" ++ "c7" ++ "&y=1" :=
  (c7_url_rewrite "https://x?cb" "&y=1" "c7" (by decide)
    (Or.inr ⟨"y=1", by decide⟩)).1

/-- Witness for C8: the first two allocated callback identifiers differ. -/
theorem c8_witness : nextCallback 0 ≠ nextCallback 1 :=
  (c8_unique_callbacks Nat Nat reqW reqW gW).2.2.2.2 0 1 (by decide)

/-- Witness for C9: the first neutralisation creates the foreign document
and adopts the node into it. -/
theorem c9_witness :
    (removeListeners (subscribe reqW gW : MState Nat Nat)).foreignDoc
        = some (subscribe reqW gW : MState Nat Nat).docCounter ∧
    (removeListeners (subscribe reqW gW : MState Nat Nat)).ex.adoptedInto
        = some (subscribe reqW gW : MState Nat Nat).docCounter :=
  (c9_neutralize_on_cancel Nat Nat (subscribe reqW gW) rfl rfl).2.2.2.1 rfl

/-- Witness for C10: applied to the no-callback error event of a concrete
run. -/
theorem c10_witness : "JSONP Error" = "JSONP Error" ∧ (0 : Nat) = 0 :=
  c10_error_status_text Nat Nat reqW gW [Stim.load, Stim.micro]
    (TermCause.errMessage JSONP_ERR_NO_CALLBACK) 0 "JSONP Error"
    (rewriteUrl reqW.urlWithParams (nextCallback 0)) (by decide)

end Jsonp
